import Mathlib

/-!
Verification model of the `intelligent_retry` plugin (`main.py`).

The Python source is shallowly embedded: every definition below is a direct
translation of the corresponding method of the `IntelligentRetry` class.
Strings are modelled as Lean `String`/`List Char` (ASCII-faithful; the CJK
characters appearing in the source's character classes are carried verbatim).
External library behaviour that the plugin merely consumes (Python's
`json.loads`) is a parameter of the configuration record.
-/

namespace RetryPlugin

/-! ## Python string primitives -/

/-- Whitespace as recognised by Python's `str.strip`, `str.split` and the
regex class `\s` (ASCII part). -/
def pyWs (c : Char) : Bool :=
  c = ' ' || c = '\t' || c = '\n' || c = '\r' || c.toNat = 11 || c.toNat = 12

/-- Python `str.strip()` on a character list. -/
def stripL (l : List Char) : List Char :=
  ((l.dropWhile pyWs).reverse.dropWhile pyWs).reverse

/-- Python `str.lower()` (ASCII letters; CJK characters are unaffected,
matching Python). -/
def lowerL (l : List Char) : List Char :=
  l.map Char.toLower

def lowerStr (s : String) : String :=
  String.mk (lowerL s.toList)

/-- Does `pat` occur at the head of `l`? -/
def leadMatch : List Char → List Char → Bool
  | [], _ => true
  | _ :: _, [] => false
  | a :: as, b :: bs => a == b && leadMatch as bs

/-- Python's `pat in s` substring test. -/
def hasSub (pat : List Char) : List Char → Bool
  | [] => pat.isEmpty
  | c :: rest => leadMatch pat (c :: rest) || hasSub pat rest

def occursIn (pat s : String) : Bool :=
  hasSub pat.toList s.toList

def endsWithL (pat l : List Char) : Bool :=
  leadMatch pat.reverse l.reverse

/-- Python `str.count` for a single character. -/
def countChar (c : Char) (l : List Char) : Nat :=
  (l.filter (fun x => x == c)).length

/-- Python `str.count` for a two-character pattern (non-overlapping). -/
def countSub2 (a b : Char) : List Char → Nat
  | [] => 0
  | [_] => 0
  | x :: y :: rest =>
    if x = a && y = b then 1 + countSub2 a b rest
    else countSub2 a b (y :: rest)

/-- Python `str.count` for a three-character pattern (non-overlapping). -/
def countSub3 (a b c : Char) : List Char → Nat
  | x :: y :: z :: rest =>
    if x = a && y = b && z = c then 1 + countSub3 a b c rest
    else countSub3 a b c (y :: z :: rest)
  | _ => 0

/-- Split a character list at a separator character (Python `str.split(sep)`). -/
def splitChar (sep : Char) : List Char → List (List Char)
  | [] => [[]]
  | c :: rest =>
    match splitChar sep rest with
    | [] => [[]]
    | h :: tl => if c = sep then [] :: h :: tl else (c :: h) :: tl

/-- Python `str.splitlines()` (modelling the `\n` separator, the only one the
plugin's strings use): no trailing empty line is produced. -/
def pySplitLines (l : List Char) : List (List Char) :=
  if l.isEmpty then []
  else if l.getLast? = some '\n' then (splitChar '\n' l).dropLast
  else splitChar '\n' l

def wordsGo : List Char → List Char → List (List Char)
  | acc, [] => if acc.isEmpty then [] else [acc.reverse]
  | acc, c :: rest =>
    if pyWs c then
      if acc.isEmpty then wordsGo [] rest else acc.reverse :: wordsGo [] rest
    else wordsGo (c :: acc) rest

/-- Python `str.split()` with no argument: split on whitespace runs,
discarding empties. -/
def wordsL (l : List Char) : List (List Char) :=
  wordsGo [] l

/-! ## Configuration (`_parse_config`)

The record holds the parsed attribute values.  `jsonOk` stands for the
external `json.loads`-succeeds oracle consumed by `_is_json_truncated`. -/

structure Config where
  maxAttempts : Nat
  retryDelayRaw : Int
  retryDelayMode : String
  errorKeywords : List String
  retryableCodes : List Nat
  nonRetryableCodes : List Nat
  fallbackReply : String
  enableTruncationRetry : Bool
  truncationDetectionMode : String
  checkStructuralIntegrity : Bool
  checkContentTypeSpecific : Bool
  minReasonableLength : Nat
  codeBlockDetection : Bool
  quoteMatchingDetection : Bool
  jsonOk : String → Bool

/-- The default configuration values produced by `_parse_config` when the
config file supplies nothing (keywords already lower-cased, as in the source). -/
def defaultConfig : Config where
  maxAttempts := 3
  retryDelayRaw := 2
  retryDelayMode := "exponential"
  errorKeywords :=
    ["api 返回的内容为空",
     "api 返回的 completion 由于内容安全过滤被拒绝(非 astrbot)",
     "调用失败",
     "[truncated_by_length]",
     "达到最大长度限制而被截断"]
  retryableCodes := [400, 429, 502, 503, 504]
  nonRetryableCodes := []
  fallbackReply := "抱歉，刚才遇到服务波动，我已自动为你重试多次仍未成功。请稍后再试或换个说法。"
  enableTruncationRetry := false
  truncationDetectionMode := "enhanced"
  checkStructuralIntegrity := true
  checkContentTypeSpecific := true
  minReasonableLength := 10
  codeBlockDetection := true
  quoteMatchingDetection := true
  jsonOk := fun _ => false

/-! ## Truncation detection (`_is_truncated` and helpers)

The default value of `truncation_valid_tail_pattern` together with the
additions hard-coded in `_detect_character_level_truncation` form the
"enhanced pattern"; every alternative of that regex is anchored at `$`, so a
search succeeds exactly when one of the suffix conditions below holds. -/

/-- Characters of the default tail character class
`[。！？!?,;:、，．…—\-\(\)\[\]'"''\w\d_一-龥\s\t]`
(note: the ASCII full stop `.` is NOT in the class). `\w`/`\d` are modelled
for ASCII; the CJK range `一-龥` is explicit. -/
def validTailChar (c : Char) : Bool :=
  c = '。' || c = '！' || c = '？' || c = '!' || c = '?' || c = ',' || c = ';' ||
  c = ':' || c = '、' || c = '，' || c = '．' || c = '…' || c = '—' || c = '-' ||
  c = '(' || c = ')' || c = '[' || c = ']' || c = '\'' || c = '"' ||
  c.isAlphanum || c = '_' ||
  (0x4e00 ≤ c.toNat && c.toNat ≤ 0x9fa5) || pyWs c

/-- File extensions of the default pattern's `\.(com|cn|…)$` alternative. -/
def tailExts1 : List String :=
  ["com", "cn", "org", "net", "io", "ai", "pdf", "jpg", "png", "jpeg", "gif",
   "mp3", "mp4", "txt", "zip", "tar", "gz", "html", "htm"]

/-- Extensions of the hard-coded `\.(py|js|…)$` addition. -/
def tailExts2 : List String :=
  ["py", "js", "ts", "java", "cpp", "c", "h", "css", "html", "json", "xml",
   "yaml", "yml", "md", "rst"]

/-- The character class of `https?://[\\w\.-]+$` — the raw-string
double-escape in the source makes it the literal set backslash, `w`, `.`, `-`. -/
def urlTailChar (c : Char) : Bool :=
  c = '\\' || c = 'w' || c = '.' || c = '-'

def allUrlTail (l : List Char) : Bool :=
  !l.isEmpty && l.all urlTailChar

def urlAt (l : List Char) : Bool :=
  (leadMatch "http://".toList l && allUrlTail (l.drop 7)) ||
  (leadMatch "https://".toList l && allUrlTail (l.drop 8))

def urlAnywhere : List Char → Bool
  | [] => false
  | c :: rest => urlAt (c :: rest) || urlAnywhere rest

/-- Second-to-last character is an ASCII digit (`[0-9]+[%°]?$` with the
optional unit present needs a digit right before it). -/
def penultDigit (l : List Char) : Bool :=
  match l.reverse with
  | _ :: d :: _ => d.isDigit
  | _ => false

/-- `re.search(enhanced_pattern, last_line, re.IGNORECASE)` succeeds. -/
def tailAccepted (lineL : List Char) : Bool :=
  let low := lowerL lineL
  match lineL.getLast? with
  | none => false
  | some c =>
    validTailChar c ||
    c = '>' || c = '=' ||
    c = Char.ofNat 125 || c = ']' || c = ')' ||
    c.isDigit ||
    ((c = '%' || c = '°') && penultDigit lineL) ||
    (tailExts1 ++ tailExts2).any (fun e => endsWithL ('.' :: e.toList) low) ||
    urlAnywhere low

/-- `_detect_character_level_truncation`. -/
def detect_character_level_truncation (text : String) : Bool :=
  let t := stripL text.toList
  if t.isEmpty then false
  else
    let lastLine := ((pySplitLines t).getLast?).getD []
    !tailAccepted lastLine

/-- `_check_bracket_balance` stack walk over the pairs `()`, `[]`, braces
and `<>`. -/
def bracketClose (c : Char) : Option Char :=
  if c = '(' then some ')'
  else if c = '[' then some ']'
  else if c = Char.ofNat 123 then some (Char.ofNat 125)
  else if c = '<' then some '>'
  else none

def isCloseBracket (c : Char) : Bool :=
  c = ')' || c = ']' || c = Char.ofNat 125 || c = '>'

def bracketGo : List Char → List Char → Bool
  | stack, [] => stack.isEmpty
  | stack, c :: rest =>
    if (bracketClose c).isSome then bracketGo (c :: stack) rest
    else if isCloseBracket c then
      match stack with
      | [] => false
      | o :: s => if bracketClose o = some c then bracketGo s rest else false
    else bracketGo stack rest

def check_bracket_balance (text : String) : Bool :=
  bracketGo [] text.toList

/-- `_check_quote_balance`. -/
def check_quote_balance (text : String) : Bool :=
  let l := text.toList
  let dq := countChar '"' l - countSub2 '\\' '"' l
  if dq % 2 ≠ 0 then false
  else
    let sq := countChar '\'' l - countSub2 '\\' '\'' l
    if sq > 2 && sq % 2 ≠ 0 then false else true

/-- `_check_markdown_completeness`. -/
def check_markdown_completeness (text : String) : Bool :=
  let l := text.toList
  let bt := Char.ofNat 96
  let cb := countSub3 bt bt bt l
  if cb % 2 ≠ 0 then false
  else
    let ic := countChar bt l - countSub2 '\\' bt l
    if ic % 2 ≠ 0 then false else true

/-- `_detect_structural_truncation`. -/
def detect_structural_truncation (cfg : Config) (text : String) : Bool :=
  if !cfg.checkStructuralIntegrity then false
  else if !check_bracket_balance text then true
  else if cfg.quoteMatchingDetection && !check_quote_balance text then true
  else if cfg.codeBlockDetection && !check_markdown_completeness text then true
  else false

/-- A position check for `re.MULTILINE` patterns `^\s*…`: `p` holds at the
start of the text or right after some newline. -/
def afterNewline (p : List Char → Bool) : List Char → Bool
  | [] => false
  | c :: rest => (c = '\n' && p rest) || afterNewline p rest

def anyLineStart (p : List Char → Bool) (l : List Char) : Bool :=
  p l || afterNewline p l

/-- `^\s*(def|function|class|import|from|#include)` at one position. -/
def codeKeywordHere (l : List Char) : Bool :=
  let r := l.dropWhile pyWs
  ["def", "function", "class", "import", "from", "#include"].any
    (fun k => leadMatch k.toList r)

/-- `^\s*[-*+]\s+` at one position. -/
def listItemHere (l : List Char) : Bool :=
  match l.dropWhile pyWs with
  | m :: c :: _ => (m = '-' || m = '*' || m = '+') && pyWs c
  | _ => false

/-- `^\s*\d+\.\s+` at one position. -/
def numItemHere (l : List Char) : Bool :=
  let r := l.dropWhile pyWs
  let ds := r.takeWhile Char.isDigit
  !ds.isEmpty &&
    (match r.drop ds.length with
     | '.' :: c :: _ => pyWs c
     | _ => false)

/-- `_get_content_type`. -/
def get_content_type (text : String) : String :=
  let l := text.toList
  let bt := Char.ofNat 96
  let low := stripL (lowerL l)
  if countSub3 bt bt bt l ≥ 2 || anyLineStart codeKeywordHere l ||
     (countChar (Char.ofNat 123) l > 2 && countChar (Char.ofNat 125) l > 2) then
    "code"
  else if (low.head? = some (Char.ofNat 123) && low.getLast? = some (Char.ofNat 125)) ||
          (low.head? = some '[' && low.getLast? = some ']') then
    "json"
  else if anyLineStart listItemHere l || anyLineStart numItemHere l then
    "list"
  else if countChar '|' l ≥ 1 && countChar '|' l > 3 then
    "table"
  else
    "natural_language"

/-- `_is_code_truncated`. -/
def is_code_truncated (text : String) : Bool :=
  let l := text.toList
  (!endsWithL ['"'] l && countChar '"' l ≥ 1 && countChar '"' l % 2 = 1) ||
  (let lines := pySplitLines l
   match lines.getLast? with
   | none => false
   | some last =>
     let ls := stripL last
     leadMatch ['#'] ls && !endsWithL ['.'] ls)

/-- `_is_list_truncated`. -/
def is_list_truncated (text : String) : Bool :=
  let lines := pySplitLines (stripL text.toList)
  match lines.getLast? with
  | none => false
  | some last =>
    let ls := stripL last
    (match ls with
     | [m] => m = '-' || m = '*' || m = '+'
     | _ => false) ||
    (!ls.isEmpty && ls.getLast? = some '.' &&
     !ls.dropLast.isEmpty && ls.dropLast.all Char.isDigit)

/-- `_is_table_truncated`. -/
def is_table_truncated (text : String) : Bool :=
  let lines := pySplitLines (stripL text.toList)
  match lines.getLast? with
  | none => false
  | some last =>
    countChar '|' last ≥ 1 && !endsWithL ['|'] (stripL last)

/-- `_is_json_truncated`: truncated iff `json.loads` fails. -/
def is_json_truncated (cfg : Config) (text : String) : Bool :=
  !cfg.jsonOk text

def conjunctionWords : List String :=
  ["and", "or", "but", "however", "therefore",
   "而且", "但是", "然而", "因此", "所以"]

/-- `_is_natural_language_truncated`: the last (up to) three
whitespace-separated words are probed against the connective list. -/
def is_natural_language_truncated (text : String) : Bool :=
  let ws := wordsL (stripL text.toList)
  let lastWords := ws.drop (ws.length - 3)
  lastWords.any (fun w => conjunctionWords.contains (String.mk (lowerL w)))

/-- `_detect_content_type_truncation`. -/
def detect_content_type_truncation (cfg : Config) (text : String) : Bool :=
  if !cfg.checkContentTypeSpecific then false
  else
    let ct := get_content_type text
    if ct = "code" then is_code_truncated text
    else if ct = "list" then is_list_truncated text
    else if ct = "table" then is_table_truncated text
    else if ct = "json" then is_json_truncated cfg text
    else is_natural_language_truncated text

/-- `_is_truncated` on a plain string (the only way the method is invoked in
the source: both call sites pass `resp.completion_text`, so the
`LLMResponse`-object branch at its head is modelled where those call sites
are, in `llm_resp_should_retry`). -/
def is_truncated (cfg : Config) (text : String) : Bool :=
  let t := stripL text.toList
  if t.isEmpty then false
  else if t.length < cfg.minReasonableLength then false
  else if cfg.truncationDetectionMode = "basic" then
    detect_character_level_truncation text
  else if cfg.truncationDetectionMode = "enhanced" then
    detect_character_level_truncation text ||
    detect_structural_truncation cfg text ||
    detect_content_type_truncation cfg text
  else if cfg.truncationDetectionMode = "strict" then
    detect_character_level_truncation text &&
    detect_structural_truncation cfg text
  else
    detect_character_level_truncation text

/-! ## Status-code extraction (`_extract_status_code`)

Regex `\b([45]\d{2})\b` via `re.search`: the leftmost position carrying a
three-digit `4xx`/`5xx` number delimited by word boundaries (word characters
modelled for ASCII, as in the texts the plugin scans). -/

def isWordCh (c : Char) : Bool :=
  c.isAlphanum || c = '_'

/-- A boundary-delimited `[45]\d{2}` match starting exactly here, given the
previous character (`none` at the start of the text). -/
def codeAt (prev : Option Char) : List Char → Option Nat
  | a :: b :: c :: rest =>
    if (a = '4' || a = '5') && b.isDigit && c.isDigit &&
       (match prev with | none => true | some p => !isWordCh p) &&
       (match rest with | [] => true | d :: _ => !isWordCh d) then
      some ((a.toNat - 48) * 100 + (b.toNat - 48) * 10 + (c.toNat - 48))
    else none
  | _ => none

/-- All boundary matches, left to right (`re.search` returns the head). -/
def allStatusCodes (prev : Option Char) : List Char → List Nat
  | [] => []
  | c :: rest =>
    match codeAt prev (c :: rest) with
    | some n => n :: allStatusCodes (some c) rest
    | none => allStatusCodes (some c) rest

/-- `_extract_status_code`. -/
def extract_status_code (s : String) : Option Nat :=
  if s = "" then none
  else (allStatusCodes none s.toList).head?

/-! ## `_should_retry_response` and the two hook decisions -/

/-- A message-chain component: either a `Plain` text segment or any other
(non-text) component. -/
inductive MsgComp
  | plain : String → MsgComp
  | other : MsgComp
deriving DecidableEq

/-- The slice of `MessageEventResult` the plugin reads: the component chain.
`get_plain_text` (framework-provided) concatenates the `Plain` texts. -/
structure MEResult where
  chain : List MsgComp
deriving DecidableEq

def compHasContent : MsgComp → Bool
  | .other => true
  | .plain t => !(stripL t.toList).isEmpty

def hasContent (r : MEResult) : Bool :=
  r.chain.any compHasContent

def getPlainText (r : MEResult) : String :=
  String.mk (r.chain.foldr (fun c acc =>
    match c with
    | .plain t => t.toList ++ acc
    | .other => acc) [])

def keywordHit (cfg : Config) (msg : String) : Bool :=
  cfg.errorKeywords.any (fun k => occursIn k (lowerStr msg))

/-- `_should_retry_response` (`None` models a falsy `result`). -/
def should_retry_response (cfg : Config) (result : Option MEResult) : Bool :=
  match result with
  | none => true
  | some r =>
    if !hasContent r then true
    else
      let msg := getPlainText r
      if msg ≠ "" then
        if occursIn "[TRUNCATED_BY_LENGTH]" msg then true
        else
          match extract_status_code msg with
          | some c =>
            if c ∈ cfg.nonRetryableCodes then false
            else if c ∈ cfg.retryableCodes then true
            else keywordHit cfg msg
          | none => keywordHit cfg msg
      else false

/-- The slice of an `LLMResponse` object that `retry_on_llm_response` probes:
its text, whether it has a `finish_reason` attribute and that attribute's
value, and whether `raw_completion.choices[0].finish_reason == "length"`. -/
structure LLMResp where
  completionText : String
  hasFinishReason : Bool
  finishReason : String
  rawFinishLength : Bool
deriving DecidableEq

/-- The `should_retry` computation of `retry_on_llm_response` (lines
1083–1156): the marker branch, the two `finish_reason == "length"` branches
(each consulting `_is_truncated` when text is present), the emptiness branch,
and the fallthrough to `_should_retry_response` on a single-`Plain` chain. -/
def llm_resp_should_retry (cfg : Config) (resp : LLMResp) : Bool :=
  if resp.completionText ≠ "" &&
     occursIn "[TRUNCATED_BY_LENGTH]" resp.completionText then true
  else if cfg.enableTruncationRetry && resp.hasFinishReason &&
          resp.finishReason = "length" then
    if resp.completionText ≠ "" && !(stripL resp.completionText.toList).isEmpty then
      is_truncated cfg resp.completionText
    else true
  else if cfg.enableTruncationRetry && resp.rawFinishLength then
    if resp.completionText ≠ "" && !(stripL resp.completionText.toList).isEmpty then
      is_truncated cfg resp.completionText
    else true
  else if resp.completionText = "" || (stripL resp.completionText.toList).isEmpty then
    true
  else
    should_retry_response cfg (some ⟨[MsgComp.plain resp.completionText]⟩)

/-- What the `check_and_retry` hook decides before any retry is attempted. -/
inductive HookAction
  | noop        -- the hook returns leaving the stored request in place
  | acceptClean -- stored request cleaned up, no retry: result stands as-is
  | runRetry    -- the retry sequence is started
deriving DecidableEq

/-- `check_and_retry` up to the point where `_execute_retry_sequence` would
run: `stored` says whether the request key is still in `pending_requests`,
`finishReason` is `event.llm_response.choices[0].finish_reason` when those
attributes exist, `msgStr` is `event.message_str`. -/
def check_and_retry_action (cfg : Config) (stored : Bool)
    (finishReason : Option String) (result : Option MEResult)
    (msgStr : String) : HookAction :=
  if cfg.maxAttempts = 0 then .noop
  else if !stored then .noop
  else if finishReason = some "tool_calls" then .acceptClean
  else if !should_retry_response cfg result then .acceptClean
  else if msgStr = "" || (stripL msgStr.toList).isEmpty then .acceptClean
  else .runRetry

/-! ## Sequential retry (`_sequential_retry_sequence`) -/

inductive SeqOutcome
  | ok : String → SeqOutcome   -- a retry produced a valid reply (returns True)
  | stopped : SeqOutcome       -- non-retryable status code: early return False
  | exhausted : SeqOutcome     -- all attempts spent: final return False
deriving DecidableEq

inductive StepRes
  | cont
  | stop
  | succ : String → StepRes
deriving DecidableEq

/-- One loop iteration of `_sequential_retry_sequence`, applied to the retry
call's result (`none` models a failed call or falsy `completion_text`). -/
def seq_step (cfg : Config) (r : Option String) : StepRes :=
  match r with
  | none => .cont
  | some t =>
    if t = "" then .cont
    else
      let nt := String.mk (stripL t.toList)
      let hasErr0 := keywordHit cfg nt
      match extract_status_code nt with
      | some c =>
        if c ∈ cfg.nonRetryableCodes then .stop
        else if nt ≠ "" && !(hasErr0 || c ∈ cfg.retryableCodes) then .succ nt
        else .cont
      | none => if nt ≠ "" && !hasErr0 then .succ nt else .cont

/-- The whole sequential loop over the per-attempt call results (list length
= `max_attempts`), returning the outcome and the number of attempts used. -/
def seq_run (cfg : Config) : List (Option String) → SeqOutcome × Nat
  | [] => (.exhausted, 0)
  | r :: rs =>
    match seq_step cfg r with
    | .stop => (.stopped, 1)
    | .succ t => (.ok t, 1)
    | .cont =>
      let p := seq_run cfg rs
      (p.1, p.2 + 1)

/-- The sleeps executed between attempts in a fully failing sequential run:
`gaps = max_attempts - 1`; the delay is slept first and only then doubled and
capped (`delay = min(delay * 2, 30)`), and nothing happens once it is 0. -/
def seq_delays (mode : String) : Nat → Nat → List Nat
  | _, 0 => []
  | d, Nat.succ gaps =>
    if d = 0 then []
    else d :: seq_delays mode (if mode = "exponential" then min (d * 2) 30 else d) gaps

/-- `_execute_retry_sequence` computes `delay = max(0, int(self.retry_delay))`
and hands it to the sequential loop. -/
def exec_delays (mode : String) (retryDelayRaw : Int) (maxAttempts : Nat) : List Nat :=
  seq_delays mode (max 0 retryDelayRaw).toNat (maxAttempts - 1)

/-! ## Concurrent retry (`_concurrent_retry_sequence`) -/

structure ConcCfg where
  base : Nat    -- concurrent_retry_count (clamped to 1..5)
  mult : Nat    -- max_concurrent_multiplier (clamped to 2..8)
  limit : Nat   -- absolute_concurrent_limit (clamped to 5..20)
  growth : Bool -- enable_exponential_growth

/-- The batch size computed at the top of the while loop for batch number `k`
(1-based) with `used` attempts already spent of `budget`. -/
def conc_batch_size (cfg : ConcCfg) (k used budget : Nat) : Nat :=
  if cfg.growth then
    min (min (cfg.base * 2 ^ (k - 1)) (budget - used))
        (min (cfg.base * cfg.mult) cfg.limit)
  else
    min cfg.base (budget - used)

/-- The while loop of `_concurrent_retry_sequence`, emitting the size of each
batch it issues; `succ k` tells whether batch `k` yields an accepted result
(ending the loop after that batch).  `fuel` only bounds the recursion; with a
positive base it never runs out before the loop's own condition fails. -/
def conc_loop (cfg : ConcCfg) (budget : Nat) (succ : Nat → Bool) :
    Nat → Nat → Nat → List Nat
  | 0, _, _ => []
  | Nat.succ fuel, used, k =>
    if used < budget then
      let size := conc_batch_size cfg k used budget
      if succ k then [size]
      else size :: conc_loop cfg budget succ fuel (used + size) (k + 1)
    else []

/-- The trace of batch sizes issued for a run with `remaining_attempts =
budget`. -/
def conc_trace (cfg : ConcCfg) (budget : Nat) (succ : Nat → Bool) : List Nat :=
  conc_loop cfg budget succ budget 0 1

/-! ## One concurrent batch (`_single_concurrent_batch`)

The tasks of a batch complete in some order; the `result_lock` serialises all
accesses to `first_valid_result`, so a batch execution is modelled by the
sequence of lock-ordered completion events, each carrying the completing
task's acceptable text (`some`) or `none` (empty / error / discarded). -/

/-- The `first_valid_result` slot under the lock: each acceptable completion
writes the slot only if it is still empty.  Returns the final slot and the
number of writes performed. -/
def slot_run : Option String → List (Option String) → Option String × Nat
  | st, [] => (st, 0)
  | st, r :: rest =>
    match st, r with
    | none, some t =>
      let p := slot_run (some t) rest
      (p.1, p.2 + 1)
    | _, _ => slot_run st rest

/-- The first acceptable result in completion order. -/
def first_valid (evs : List (Option String)) : Option String :=
  (evs.filterMap id).head?

/-- The outer wait loop: completions are consumed in order while no winner is
recorded; the first acceptable completion is recorded as the winner and every
task still in flight at that moment is cancelled (second component).  If no
event produces a winner, the loop ends and cancels whatever never completed
(timeout path). -/
def batch_run (inflight : List Nat) :
    List (Nat × Option String) → Option (Nat × String) × List Nat
  | [] => (none, inflight)
  | (i, r) :: rest =>
    match r with
    | some t => (some (i, t), inflight.erase i)
    | none => batch_run (inflight.erase i) rest

/-- The task ids that complete before (and including) the winning event. -/
def ids_until_win : List (Nat × Option String) → List Nat
  | [] => []
  | (i, r) :: rest => i :: (if r.isSome then [] else ids_until_win rest)

/-! ## Request snapshot store (`store_llm_request` /
`_perform_retry_with_stored_params`)

Python lists are mutable objects passed by reference, so the caller-owned
history lists live in an explicit heap indexed by object identity; a
`ProviderRequest.contexts` attribute is such a reference. -/

abbrev Msg := String
abbrev Heap := Nat → List Msg

/-- The slice of a `ProviderRequest` that `store_llm_request` captures. -/
structure ProviderReq where
  prompt : String
  contextsRef : Nat      -- identity of the caller's mutable history list
  systemPrompt : String
  hasConversation : Bool

/-- One entry of `self.pending_requests`: `stored_params["contexts"]` is
`getattr(req, "contexts", [])` — the same list object, no copy. -/
structure StoredParams where
  prompt : String
  contextsRef : Nat
  systemPrompt : String
  hasConversation : Bool

def store_llm_request (req : ProviderReq) : StoredParams :=
  { prompt := req.prompt
    contextsRef := req.contextsRef
    systemPrompt := req.systemPrompt
    hasConversation := req.hasConversation }

/-- The history actually handed to `provider.text_chat` on a retry: when no
conversation object is stored, `kwargs["contexts"] = stored_params.get("contexts", [])`
dereferences the stored list object in the heap as it is *at retry time*. -/
def retry_sent_contexts (heapNow : Heap) (s : StoredParams) : Option (List Msg) :=
  if s.hasConversation then none else some (heapNow s.contextsRef)

/-- Modelled from the spec: `capture` with a deep copy of the history list,
the behaviour §4.4 prescribes but `store_llm_request` does not implement. -/
structure SnapshotSpec where
  contextsCopy : List Msg

def capture_deep (heap : Heap) (req : ProviderReq) : SnapshotSpec :=
  ⟨heap req.contextsRef⟩

def retry_sent_contexts_spec (s : SnapshotSpec) : Option (List Msg) :=
  some s.contextsCopy

/-- Heap update: the caller mutates its own history list in place. -/
def heapSet (h : Heap) (a : Nat) (v : List Msg) : Heap :=
  fun x => if x = a then v else h x

/-! ## Fallback on exhaustion (`_handle_retry_failure`) -/

inductive FailAction
  | emitMsg : String → FailAction  -- event.set_result(message)
  | clearStop : FailAction         -- event.clear_result(); event.stop_event()
deriving DecidableEq

/-- `_handle_retry_failure`: `if self.fallback_reply and self.fallback_reply.strip():`
emits the *stripped* reply, otherwise clears the result and stops the event. -/
def handle_retry_failure (fallbackReply : String) : FailAction :=
  if fallbackReply ≠ "" && !(stripL fallbackReply.toList).isEmpty then
    .emitMsg (String.mk (stripL fallbackReply.toList))
  else .clearStop

/-! ## Configuration clamps (`_parse_config`) -/

def parsed_concurrent_retry_count (raw : Int) : Int := max 1 (min raw 5)
def parsed_max_concurrent_multiplier (raw : Int) : Int := max 2 (min raw 8)
def parsed_absolute_concurrent_limit (raw : Int) : Int := max 5 (min raw 20)
def parsed_concurrent_retry_timeout (raw : Int) : Int := max 5 (min raw 300)
def parsed_min_reasonable_length (raw : Int) : Int := max 5 raw

/-- A configuration with given status-code sets and no error keywords (used
to probe the status-code rules in isolation). -/
def statusConfig (nr rt : List Nat) : Config :=
  { defaultConfig with nonRetryableCodes := nr, retryableCodes := rt, errorKeywords := [] }

/-! ## General lemmas -/

theorem stripL_empty_toList : stripL ("" : String).toList = [] := rfl

theorem strip_nonempty_ne (s : String) (h : (stripL s.toList).isEmpty = false) :
    s ≠ "" := by
  intro he
  subst he
  rw [stripL_empty_toList] at h
  exact absurd h (by decide)

theorem stripL_ne_nil (s : String) (h : (stripL s.toList).isEmpty = false) :
    ¬ stripL s.data = [] := by
  intro hnil
  simp only [String.toList] at h
  rw [hnil] at h
  exact absurd h (by decide)

theorem stripL_eq_nil (s : String) (h : (stripL s.toList).isEmpty = true) :
    stripL s.data = [] := by
  simp only [String.toList] at h
  exact List.isEmpty_iff.mp h

/-- Once the slot holds a value, every later completion leaves it unchanged
and performs no write. -/
theorem slot_run_some (t : String) (evs : List (Option String)) :
    slot_run (some t) evs = (some t, 0) := by
  induction evs with
  | nil => rfl
  | cons r rest ih => cases r <;> simpa [slot_run] using ih

theorem slot_run_none_writes (evs : List (Option String)) :
    (slot_run none evs).2 ≤ 1 := by
  induction evs with
  | nil => decide
  | cons r rest ih =>
    cases r with
    | none => simpa [slot_run] using ih
    | some t => simp [slot_run, slot_run_some]

theorem slot_run_none_fst (evs : List (Option String)) :
    (slot_run none evs).1 = first_valid evs := by
  induction evs with
  | nil => rfl
  | cons r rest ih =>
    cases r with
    | none => simpa [slot_run, first_valid, List.filterMap_cons] using ih
    | some t => simp [slot_run, slot_run_some, first_valid, List.filterMap_cons]

theorem batch_run_winner (tagged : List (Nat × Option String)) :
    ∀ inflight : List Nat,
      (batch_run inflight tagged).1 =
        (tagged.filterMap (fun e => e.2.map (fun t => (e.1, t)))).head? := by
  induction tagged with
  | nil => intro inflight; rfl
  | cons e rest ih =>
    intro inflight
    obtain ⟨i, r⟩ := e
    cases r with
    | none => simpa [batch_run, List.filterMap_cons] using ih (inflight.erase i)
    | some t => simp [batch_run, List.filterMap_cons]

theorem batch_run_cancels (tagged : List (Nat × Option String)) :
    ∀ inflight : List Nat, ∀ i ∈ inflight,
      i ∉ ids_until_win tagged → i ∈ (batch_run inflight tagged).2 := by
  induction tagged with
  | nil => intro inflight i hi _; simpa [batch_run] using hi
  | cons e rest ih =>
    intro inflight i hi hnot
    obtain ⟨j, r⟩ := e
    have hij : i ≠ j := by
      intro h
      exact hnot (by simp [ids_until_win, h])
    have hmem : i ∈ inflight.erase j := (List.mem_erase_of_ne hij).mpr hi
    cases r with
    | none =>
      have hnot' : i ∉ ids_until_win rest := by
        intro h
        exact hnot (by simp [ids_until_win, h])
      simpa [batch_run] using ih (inflight.erase j) i hmem hnot'
    | some t => simpa [batch_run] using hmem

/-- Every element of the concurrent-batch trace is the batch size computed by
the loop at its position, fed with the attempts spent by earlier batches. -/
theorem conc_loop_get (cfg : ConcCfg) (budget : Nat) (succ : Nat → Bool) :
    ∀ (fuel used k j : Nat), j < (conc_loop cfg budget succ fuel used k).length →
      (conc_loop cfg budget succ fuel used k)[j]? =
        some (conc_batch_size cfg (k + j)
          (used + ((conc_loop cfg budget succ fuel used k).take j).sum) budget) := by
  intro fuel
  induction fuel with
  | zero => intro used k j h; simp [conc_loop] at h
  | succ fuel ih =>
    intro used k j h
    by_cases hu : used < budget
    · by_cases hs : succ k = true
      · have hEq : conc_loop cfg budget succ (fuel + 1) used k =
            [conc_batch_size cfg k used budget] := by
          simp [conc_loop, hu, hs]
        rw [hEq] at h ⊢
        have hj : j = 0 := by simpa using h
        subst hj
        simp
      · have hB : succ k = false := by simpa using hs
        have hEq : conc_loop cfg budget succ (fuel + 1) used k =
            conc_batch_size cfg k used budget ::
              conc_loop cfg budget succ fuel
                (used + conc_batch_size cfg k used budget) (k + 1) := by
          simp [conc_loop, hu, hB]
        rw [hEq] at h ⊢
        cases j with
        | zero => simp
        | succ j =>
          have h' : j < (conc_loop cfg budget succ fuel
              (used + conc_batch_size cfg k used budget) (k + 1)).length := by
            simpa using h
          have ihv := ih (used + conc_batch_size cfg k used budget) (k + 1) j h'
          rw [List.getElem?_cons_succ, ihv]
          have harg1 : k + 1 + j = k + (j + 1) := by omega
          have harg2 : used + conc_batch_size cfg k used budget +
              ((conc_loop cfg budget succ fuel
                (used + conc_batch_size cfg k used budget) (k + 1)).take j).sum =
              used + ((conc_batch_size cfg k used budget ::
                conc_loop cfg budget succ fuel
                  (used + conc_batch_size cfg k used budget) (k + 1)).take (j + 1)).sum := by
            simp [List.take_succ_cons, List.sum_cons]
            omega
          rw [harg1, harg2]
    · simp [conc_loop, hu] at h

/-- With a positive base the loop never stalls: if every batch fails, the
trace spends the whole remaining budget. -/
theorem conc_loop_sum (cfg : ConcCfg) (budget : Nat) (succ : Nat → Bool)
    (hg : cfg.growth = true) (hb : 1 ≤ cfg.base) (hm : 1 ≤ cfg.mult)
    (hl : 1 ≤ cfg.limit) (hfail : ∀ k, succ k = false) :
    ∀ (fuel used k : Nat), budget - used ≤ fuel →
      (conc_loop cfg budget succ fuel used k).sum = budget - used := by
  intro fuel
  induction fuel with
  | zero =>
    intro used k hfu
    simp only [conc_loop, List.sum_nil]
    omega
  | succ fuel ih =>
    intro used k hfu
    by_cases hu : used < budget
    · have hsz1 : 1 ≤ conc_batch_size cfg k used budget := by
        have h1 : 1 ≤ cfg.base * 2 ^ (k - 1) :=
          Nat.one_le_iff_ne_zero.mpr
            (Nat.mul_ne_zero (by omega)
              (Nat.pos_iff_ne_zero.mp (Nat.pos_pow_of_pos _ (by omega))))
        have h2 : 1 ≤ budget - used := by omega
        have h3 : 1 ≤ cfg.base * cfg.mult :=
          Nat.one_le_iff_ne_zero.mpr (Nat.mul_ne_zero (by omega) (by omega))
        unfold conc_batch_size
        rw [if_pos hg]
        exact le_min (le_min h1 h2) (le_min h3 hl)
      have hszle : conc_batch_size cfg k used budget ≤ budget - used := by
        unfold conc_batch_size
        rw [if_pos hg]
        exact le_trans (min_le_left _ _) (min_le_right _ _)
      have hrec := ih (used + conc_batch_size cfg k used budget) (k + 1) (by omega)
      rw [show conc_loop cfg budget succ (fuel + 1) used k =
          conc_batch_size cfg k used budget ::
            conc_loop cfg budget succ fuel
              (used + conc_batch_size cfg k used budget) (k + 1) from by
        simp [conc_loop, hu, hfail k]]
      rw [List.sum_cons, hrec]
      omega
    · rw [show conc_loop cfg budget succ (fuel + 1) used k = [] from by
        simp [conc_loop, hu]]
      simp only [List.sum_nil]
      omega

/-- All delays of an exponential sequence started at or below the cap stay at
or below the cap. -/
theorem seq_delays_le_cap :
    ∀ (gaps d : Nat), d ≤ 30 → ∀ x ∈ seq_delays "exponential" d gaps, x ≤ 30 := by
  intro gaps
  induction gaps with
  | zero => intro d _ x hx; simp [seq_delays] at hx
  | succ gaps ih =>
    intro d hd x hx
    by_cases hz : d = 0
    · simp [seq_delays, hz] at hx
    · simp only [seq_delays, if_neg hz] at hx
      rcases List.mem_cons.mp hx with h | h
      · omega
      · have : x ∈ seq_delays "exponential" (min (d * 2) 30) gaps := by
          simpa using h
        exact ih (min (d * 2) 30) (min_le_right _ _) x this

/-- In enhanced mode, a sufficiently long string judged complete necessarily
passed the character-level check: its last line ends in an accepted tail
character (the tail pattern matched). -/
theorem enhanced_complete_tail_accepted (cfg : Config) (s : String)
    (hmode : cfg.truncationDetectionMode = "enhanced")
    (hne : stripL s.data ≠ [])
    (hnl : ¬ (stripL s.data).length < cfg.minReasonableLength)
    (hfalse : is_truncated cfg s = false) :
    tailAccepted (((pySplitLines (stripL s.data)).getLast?).getD []) = true := by
  unfold is_truncated at hfalse
  simp [String.toList, hne, hnl, hmode] at hfalse
  obtain ⟨h1, -⟩ := hfalse
  unfold detect_character_level_truncation at h1
  simp [String.toList, hne] at h1
  exact h1.1

/-- In enhanced mode with content-type checks on, a sufficiently long string
classified as natural language whose trailing words contain a dangling
connective is judged truncated (the content-type detector fires, whatever
the other two detectors say). -/
theorem enhanced_natural_connective_truncated (cfg : Config) (s : String)
    (hmode : cfg.truncationDetectionMode = "enhanced")
    (hcts : cfg.checkContentTypeSpecific = true)
    (hne : stripL s.data ≠ [])
    (hnl : ¬ (stripL s.data).length < cfg.minReasonableLength)
    (hct : get_content_type s = "natural_language")
    (hnat : is_natural_language_truncated s = true) :
    is_truncated cfg s = true := by
  have hcontent : detect_content_type_truncation cfg s = true := by
    unfold detect_content_type_truncation
    simp [hcts, hct, hnat]
  unfold is_truncated
  simp [String.toList, hne, hnl, hmode, hcontent]

/-! ## Claim theorems -/

/-- C1 counterexample: the snapshot claim fails on the code.  The caller's
history list starts as `[A, B]`, `store_llm_request` captures it, the caller
then mutates the same list object to `[A, B, C]`; the retry sends
`[A, B, C]`, not the `[A, B]` the claim promises. -/
theorem C1_counterexample :
    retry_sent_contexts (heapSet (fun _ => ["A", "B"]) 0 ["A", "B", "C"])
        (store_llm_request ⟨"prompt", 0, "sys", false⟩) = some ["A", "B", "C"] ∧
    (["A", "B", "C"] : List Msg) ≠ ["A", "B"] := by
  constructor
  · rfl
  · decide

/-- C1 (amended): `store_llm_request` performs no deep copy — it stores the
caller's list object by reference, so a retry sends the list's value at
retry time, while the spec-modelled deep-copying capture would replay the
value frozen at capture time. -/
theorem C1_snapshot_reference_semantics (heap0 heapNow : Heap) (req : ProviderReq)
    (h : req.hasConversation = false) :
    retry_sent_contexts heapNow (store_llm_request req) = some (heapNow req.contextsRef) ∧
    retry_sent_contexts_spec (capture_deep heap0 req) = some (heap0 req.contextsRef) := by
  constructor
  · simp [retry_sent_contexts, store_llm_request, h]
  · rfl

/-- C1 witness: the amended statement at the concrete mutated heap. -/
theorem C1_snapshot_reference_semantics_witness :
    retry_sent_contexts (fun _ => ["A", "B", "C"])
        (store_llm_request ⟨"p", 0, "s", false⟩) = some ["A", "B", "C"] :=
  (C1_snapshot_reference_semantics (fun _ => ["A", "B"]) (fun _ => ["A", "B", "C"])
    ⟨"p", 0, "s", false⟩ rfl).1

/-- C2 counterexample: truncation retry enabled, the backend reports
`finish_reason == "length"`, yet no retry is started, because the code
additionally runs the Tier-2 text heuristic and `"Hi."` is judged complete
(it is shorter than `min_reasonable_length`). -/
theorem C2_counterexample :
    llm_resp_should_retry { defaultConfig with enableTruncationRetry := true }
        ⟨"Hi.", true, "length", false⟩ = false ∧
    ({ defaultConfig with enableTruncationRetry := true } : Config).enableTruncationRetry
        = true := by
  constructor
  · decide
  · rfl

/-- C2 (amended): with truncation retry enabled and a reported
`finish_reason == "length"` (directly or via `raw_completion.choices[0]`,
and no provider truncation marker in the text), the response is retried iff
its text is blank or the Tier-2 text heuristic `_is_truncated` judges it
truncated — the authoritative signal is a necessary gate, not a definitive
verdict, and Tier 2 is not skipped. -/
theorem C2_length_signal_gated_by_heuristic (cfg : Config) (resp : LLMResp)
    (he : cfg.enableTruncationRetry = true)
    (hm : occursIn "[TRUNCATED_BY_LENGTH]" resp.completionText = false)
    (hlen : resp.hasFinishReason = true ∧ resp.finishReason = "length"
            ∨ resp.rawFinishLength = true) :
    ((stripL resp.completionText.toList).isEmpty = false →
        llm_resp_should_retry cfg resp = is_truncated cfg resp.completionText) ∧
    ((stripL resp.completionText.toList).isEmpty = true →
        llm_resp_should_retry cfg resp = true) := by
  obtain ⟨ct, hf, fr, raw⟩ := resp
  simp only at hm hlen ⊢
  constructor <;> intro hs
  · have hne : ct ≠ "" := strip_nonempty_ne ct hs
    have hs' : ¬ stripL ct.data = [] := stripL_ne_nil ct hs
    rcases hlen with ⟨h1, h2⟩ | h1
    · subst h1 h2
      simp [llm_resp_should_retry, hm, he, hne, hs', String.toList]
    · subst h1
      simp [llm_resp_should_retry, hm, he, hne, hs', String.toList]
  · have hs' : stripL ct.data = [] := stripL_eq_nil ct hs
    by_cases hne : ct = ""
    · subst hne
      simp [llm_resp_should_retry]
    · simp [llm_resp_should_retry, hm, hne, hs', String.toList]

/-- C2 witness: the amended theorem at a concrete short complete text. -/
theorem C2_length_signal_gated_by_heuristic_witness :
    llm_resp_should_retry { defaultConfig with enableTruncationRetry := true }
        ⟨"OK.", true, "length", false⟩ = false := by
  have h := (C2_length_signal_gated_by_heuristic
      { defaultConfig with enableTruncationRetry := true }
      ⟨"OK.", true, "length", false⟩ rfl (by decide) (Or.inl ⟨rfl, rfl⟩)).1 (by decide)
  rw [h]
  decide

/-- C3 counterexample: the response text contains `404`, a member of the
configured non-retryable set, but the first extracted code is the retryable
`502`, so the loop does not stop — it continues and a second attempt is
issued (and accepted). -/
theorem C3_counterexample :
    seq_run (statusConfig [404] [502])
        [some "Error 502 happened at path /a 404", some "All good"]
      = (.ok "All good", 2) ∧
    404 ∈ allStatusCodes none (stripL "Error 502 happened at path /a 404".toList) ∧
    404 ∈ (statusConfig [404] [502]).nonRetryableCodes := by
  refine ⟨by decide, by decide, by decide⟩

/-- C3 (amended): whenever the *first* extracted 4xx/5xx code of an
attempt's text is in the configured non-retryable set, the sequential loop
terminates immediately with a stop verdict after that single attempt — no
further attempt is issued, whatever responses would have followed, and this
holds even when the same code is also in the retryable set (rule-level
precedence). -/
theorem C3_non_retryable_stops_immediately (cfg : Config) (t : String)
    (rest : List (Option String)) (c : Nat)
    (hx : extract_status_code (String.mk (stripL t.toList)) = some c)
    (hc : c ∈ cfg.nonRetryableCodes) :
    seq_run cfg (some t :: rest) = (.stopped, 1) := by
  have ht : t ≠ "" := by
    intro he
    subst he
    rw [show String.mk (stripL ("" : String).toList) = "" from rfl] at hx
    simp [extract_status_code] at hx
  simp only [String.toList] at hx
  simp [seq_run, seq_step, ht, hx, hc]

/-- C3 witness: concrete stop on a text whose code is in both configured
sets — non-retryable wins and the pending second response is never used. -/
theorem C3_non_retryable_stops_immediately_witness :
    seq_run (statusConfig [503] [503])
        [some "HTTP 503", some "never reached"] = (.stopped, 1) :=
  C3_non_retryable_stops_immediately _ "HTTP 503" [some "never reached"] 503
    (by decide) (by decide)

/-- C4 counterexample: the claim's exception fails on the code.  An empty
response carrying tool-call metadata (`finish_reason == "tool_calls"`) IS
retried: `retry_on_llm_response` has no tool-call guard, so its emptiness
branch fires regardless of that metadata.  And since that hook runs first
and deletes the stored request, the decorating hook — the only place the
guard exists — no longer engages (its stored-request check makes it a
no-op). -/
theorem C4_counterexample :
    llm_resp_should_retry defaultConfig ⟨"", true, "tool_calls", false⟩ = true ∧
    check_and_retry_action defaultConfig false (some "tool_calls") (some ⟨[]⟩) "hello"
      = .noop := by
  refine ⟨by decide, by decide⟩

/-- C4 (amended): an empty-text response is always retried by the response
hook regardless of all metadata — including tool-call metadata, since that
hook has no tool-call guard.  The tool-call guard exists only in the backup
decorating hook: there a result with no content (no non-blank text and no
non-text payload) is retried, except when the original LLM response's finish
reason is `tool_calls`, in which case the result is accepted unconditionally
and no retry happens in that hook. -/
theorem C4_empty_retried_tool_calls_accepted (cfg : Config) (r : MEResult)
    (fr : Option String) (msg : String)
    (hmax : 0 < cfg.maxAttempts) (hr : hasContent r = false)
    (hmsg : (stripL msg.toList).isEmpty = false) :
    (∀ resp : LLMResp, resp.completionText = "" →
        llm_resp_should_retry cfg resp = true) ∧
    (fr ≠ some "tool_calls" →
        check_and_retry_action cfg true fr (some r) msg = .runRetry) ∧
    check_and_retry_action cfg true (some "tool_calls") (some r) msg = .acceptClean := by
  have hmax' : ¬ cfg.maxAttempts = 0 := by omega
  have hmsg' : msg ≠ "" := strip_nonempty_ne msg hmsg
  refine ⟨?_, ?_, ?_⟩
  · intro resp h
    obtain ⟨ct, hf, fr', raw⟩ := resp
    simp only at h
    subst h
    simp [llm_resp_should_retry]
  · intro hfr
    simp [check_and_retry_action, hmax', hfr, should_retry_response, hr, hmsg',
      stripL_ne_nil msg hmsg, String.toList]
  · simp [check_and_retry_action, hmax']

/-- C4 witness: the theorem at a concrete empty chain and empty response. -/
theorem C4_empty_retried_tool_calls_accepted_witness :
    check_and_retry_action defaultConfig true (some "tool_calls") (some ⟨[]⟩) "hello"
        = .acceptClean ∧
    check_and_retry_action defaultConfig true none (some ⟨[]⟩) "hello" = .runRetry ∧
    llm_resp_should_retry defaultConfig ⟨"", false, "", false⟩ = true :=
  ⟨(C4_empty_retried_tool_calls_accepted defaultConfig ⟨[]⟩ (some "tool_calls") "hello"
      (by decide) (by decide) (by decide)).2.2,
   (C4_empty_retried_tool_calls_accepted defaultConfig ⟨[]⟩ none "hello"
      (by decide) (by decide) (by decide)).2.1 (by decide),
   (C4_empty_retried_tool_calls_accepted defaultConfig ⟨[]⟩ none "hello"
      (by decide) (by decide) (by decide)).1 ⟨"", false, "", false⟩ rfl⟩

/-- C5 counterexample: under the default configuration, the dangling
connective `"and"` is judged complete (its length is below
`min_reasonable_length`, so the verdict depends on length), and
`"Everything is finished now."` — which ends in sentence-terminal
punctuation — is judged incomplete (ASCII `.` is not in the accepted tail
class). -/
theorem C5_counterexample :
    is_truncated defaultConfig "and" = false ∧
    is_truncated defaultConfig "Everything is finished now." = true := by
  refine ⟨by decide, by decide⟩

/-- C5 (amended): under the default configuration the verdict is
length-dependent and the terminal-mark rule is necessary, not sufficient:
(i) every string whose stripped length is below `min_reasonable_length` is
judged complete regardless of its ending; (ii) every longer string judged
complete necessarily ends in an accepted tail character (CJK `。！？` etc.;
ASCII `.` is not accepted) — but an accepted terminal mark alone does not
force a complete verdict (the bracket-balance check still judges
`((((((((((。` truncated); (iii) every longer string classified as natural
language whose trailing words contain a dangling connective is judged
incomplete (texts typed as code/list/table/json follow those branches'
rules instead). -/
theorem C5_truncation_heuristic_length_dependent :
    (∀ s : String, (stripL s.toList).length < defaultConfig.minReasonableLength →
        is_truncated defaultConfig s = false) ∧
    (∀ s : String, defaultConfig.minReasonableLength ≤ (stripL s.toList).length →
        is_truncated defaultConfig s = false →
        tailAccepted (((pySplitLines (stripL s.toList)).getLast?).getD []) = true) ∧
    (∀ s : String, defaultConfig.minReasonableLength ≤ (stripL s.toList).length →
        get_content_type s = "natural_language" → is_natural_language_truncated s = true →
        is_truncated defaultConfig s = true) ∧
    is_truncated defaultConfig "((((((((((。" = true ∧
    is_truncated defaultConfig "这个问题已经顺利解决完成。" = false ∧
    is_truncated defaultConfig "我们先完成这个任务 但是" = true := by
  refine ⟨?_, ?_, ?_, by decide, by decide, by decide⟩
  · intro s h
    simp only [String.toList] at h
    by_cases he : stripL s.data = []
    · simp [is_truncated, String.toList, he]
    · simp [is_truncated, String.toList, he, h]
  · intro s hlen hfalse
    simp only [String.toList] at hlen ⊢
    have hne : stripL s.data ≠ [] := by
      intro h
      rw [h] at hlen
      exact absurd hlen (by decide)
    exact enhanced_complete_tail_accepted defaultConfig s rfl hne (by omega) hfalse
  · intro s hlen hct hnat
    simp only [String.toList] at hlen
    have hne : stripL s.data ≠ [] := by
      intro h
      rw [h] at hlen
      exact absurd hlen (by decide)
    exact enhanced_natural_connective_truncated defaultConfig s rfl rfl hne
      (by omega) hct hnat

/-- C5 witness: the universally quantified part at `"Done."`. -/
theorem C5_truncation_heuristic_length_dependent_witness :
    is_truncated defaultConfig "Done." = false :=
  C5_truncation_heuristic_length_dependent.1 "Done." (by decide)

/-- C6: for every lock-serialised order of task completions in one batch,
the first-accepted-result slot is written at most once, it ends up holding
exactly the first acceptable result (later acceptable results are
discarded), and every task still in flight when the winner is recorded is
cancelled. -/
theorem C6_first_winner_set_once (evs : List (Option String))
    (tagged : List (Nat × Option String)) (inflight : List Nat) :
    (slot_run none evs).2 ≤ 1 ∧
    (slot_run none evs).1 = first_valid evs ∧
    (batch_run inflight tagged).1 =
      (tagged.filterMap (fun e => e.2.map (fun t => (e.1, t)))).head? ∧
    (∀ i ∈ inflight, i ∉ ids_until_win tagged → i ∈ (batch_run inflight tagged).2) :=
  ⟨slot_run_none_writes evs, slot_run_none_fst evs,
   batch_run_winner tagged inflight, batch_run_cancels tagged inflight⟩

/-- C6 witness: a concrete interleaving — the slot records only the first
acceptable result and the still-pending task 5 is cancelled. -/
theorem C6_first_winner_set_once_witness :
    (slot_run none [none, some "a", none, some "b"]).2 ≤ 1 ∧
    (5 : Nat) ∈ (batch_run [3, 5] [(3, some "hi")]).2 :=
  ⟨(C6_first_winner_set_once [none, some "a", none, some "b"] [(3, some "hi")] [3, 5]).1,
   (C6_first_winner_set_once [none, some "a", none, some "b"] [(3, some "hi")] [3, 5]).2.2.2
     5 (by decide) (by decide)⟩

/-- C7: with exponential growth enabled, the k-th issued batch (0-based `j`,
so `k = j + 1`) has size exactly
`min(base * 2^j, remaining budget, base * multiplier, absolute limit)`, and
if no batch yields an accepted result the loop keeps issuing batches until
the whole attempt budget is spent. -/
theorem C7_concurrent_batch_growth (cfg : ConcCfg) (budget : Nat) (succ : Nat → Bool)
    (hg : cfg.growth = true) (hb : 1 ≤ cfg.base) (hm : 1 ≤ cfg.mult)
    (hl : 1 ≤ cfg.limit) :
    (∀ j : Nat, j < (conc_trace cfg budget succ).length →
        (conc_trace cfg budget succ)[j]? =
          some (min (min (cfg.base * 2 ^ j)
                   (budget - ((conc_trace cfg budget succ).take j).sum))
              (min (cfg.base * cfg.mult) cfg.limit))) ∧
    ((∀ k, succ k = false) → (conc_trace cfg budget succ).sum = budget) := by
  constructor
  · intro j h
    have hv := conc_loop_get cfg budget succ budget 0 1 j h
    rw [show (1 : Nat) + j = j + 1 from by omega] at hv
    simpa [conc_trace, conc_batch_size, hg] using hv
  · intro hfail
    have := conc_loop_sum cfg budget succ hg hb hm hl hfail budget 0 1 (by omega)
    simpa [conc_trace] using this

/-- C7 witness: base 2, multiplier 4, limit 10, budget 9 — the batches are
2, 4 and then the 3 remaining attempts, spending the budget exactly. -/
theorem C7_concurrent_batch_growth_witness :
    (conc_trace ⟨2, 4, 10, true⟩ 9 (fun _ => false)).sum = 9 :=
  (C7_concurrent_batch_growth ⟨2, 4, 10, true⟩ 9 (fun _ => false) rfl
    (by decide) (by decide) (by decide)).2 (fun _ => rfl)

/-- C8 counterexample: with the configured initial delay 100 and three
attempts, the delays slept between consecutive attempts are `[100, 30]` —
the first inter-attempt delay exceeds the 30-unit ceiling. -/
theorem C8_counterexample :
    exec_delays "exponential" 100 3 = [100, 30] ∧ ¬ (100 ≤ 30) := by
  refine ⟨by decide, by decide⟩

/-- C8 (amended): in exponential mode every delay *after the first* is capped
at 30 time-units, for every configured initial delay and attempt count (the
first delay equals the configured value and is not capped). -/
theorem C8_exponential_cap_after_first (raw : Int) (maxAttempts : Nat) :
    ∀ x ∈ (exec_delays "exponential" raw maxAttempts).drop 1, x ≤ 30 := by
  intro x hx
  unfold exec_delays at hx
  rcases hg : maxAttempts - 1 with _ | g
  · rw [hg] at hx
    simp [seq_delays] at hx
  · rw [hg] at hx
    by_cases hz : ((max 0 raw).toNat : Nat) = 0
    · rw [show seq_delays "exponential" (max 0 raw).toNat (g + 1) = [] from by
        simp [seq_delays, hz]] at hx
      simp at hx
    · rw [show seq_delays "exponential" (max 0 raw).toNat (g + 1) =
          (max 0 raw).toNat ::
            seq_delays "exponential" (min ((max 0 raw).toNat * 2) 30) g from by
        simp [seq_delays, hz]] at hx
      rw [List.drop_one, List.tail_cons] at hx
      exact seq_delays_le_cap g (min ((max 0 raw).toNat * 2) 30)
        (min_le_right _ _) x hx

/-- C8 witness: the capped second delay of the counterexample run. -/
theorem C8_exponential_cap_after_first_witness :
    (30 : Nat) ∈ (exec_delays "exponential" 100 3).drop 1 ∧ (30 : Nat) ≤ 30 :=
  ⟨by decide, C8_exponential_cap_after_first 100 3 30 (by decide)⟩

/-- C9 counterexample: the fallback `" "` is a non-empty configured string,
yet nothing is emitted (the claim's empty-string case fires instead), and
the non-empty fallback `" 抱歉 "` is emitted stripped, not verbatim. -/
theorem C9_counterexample :
    handle_retry_failure " " = .clearStop ∧ (" " : String) ≠ "" ∧
    handle_retry_failure " 抱歉 " = .emitMsg "抱歉" ∧ ("抱歉" : String) ≠ " 抱歉 " := by
  refine ⟨by decide, by decide, by decide, by decide⟩

/-- C9 (amended): on exhaustion the failure handler emits the *stripped*
fallback message whenever the configured message contains non-whitespace;
when it is empty or whitespace-only, no message is emitted — the result is
cleared and the stop signal fires. -/
theorem C9_fallback_stripped_or_stop (fb : String) :
    ((stripL fb.toList).isEmpty = false →
        handle_retry_failure fb = .emitMsg (String.mk (stripL fb.toList))) ∧
    ((stripL fb.toList).isEmpty = true → handle_retry_failure fb = .clearStop) := by
  constructor <;> intro h
  · have hne : fb ≠ "" := strip_nonempty_ne fb h
    simp [handle_retry_failure, hne, stripL_ne_nil fb h, String.toList]
  · simp [handle_retry_failure, stripL_eq_nil fb h, String.toList]

/-- C9 witness: the amended statement at a padded and at an empty fallback. -/
theorem C9_fallback_stripped_or_stop_witness :
    handle_retry_failure "服务异常 " = .emitMsg "服务异常" ∧
    handle_retry_failure "" = .clearStop :=
  ⟨(C9_fallback_stripped_or_stop "服务异常 ").1 (by decide),
   (C9_fallback_stripped_or_stop "").2 (by decide)⟩

/-- C10: whatever integers the configuration supplies, the parsed values are
clamped into fixed ranges — base concurrent count into [1,5], growth
multiplier into [2,8], absolute concurrent limit into [5,20], batch timeout
into [5,300], and the minimum reasonable truncation length to at least 5. -/
theorem C10_config_clamped :
    ∀ a b c d e : Int,
      1 ≤ parsed_concurrent_retry_count a ∧ parsed_concurrent_retry_count a ≤ 5 ∧
      2 ≤ parsed_max_concurrent_multiplier b ∧ parsed_max_concurrent_multiplier b ≤ 8 ∧
      5 ≤ parsed_absolute_concurrent_limit c ∧ parsed_absolute_concurrent_limit c ≤ 20 ∧
      5 ≤ parsed_concurrent_retry_timeout d ∧ parsed_concurrent_retry_timeout d ≤ 300 ∧
      5 ≤ parsed_min_reasonable_length e := by
  intro a b c d e
  refine ⟨le_max_left _ _, max_le (by norm_num) (min_le_right _ _),
          le_max_left _ _, max_le (by norm_num) (min_le_right _ _),
          le_max_left _ _, max_le (by norm_num) (min_le_right _ _),
          le_max_left _ _, max_le (by norm_num) (min_le_right _ _),
          le_max_left _ _⟩

end RetryPlugin
